import Mathlib

/-!
Shallow embedding of the mallardbay/.github automation scripts.

Timestamps are modelled as milliseconds since the Unix epoch (`Int`),
matching the JavaScript `Date.getTime()` representation.  JavaScript
`Math.floor` of an exact integer quotient is `Int.fdiv` (floor
division); the JavaScript remainder operator `%` is `Int.tmod`
(truncation toward zero, sign of the dividend).
-/

namespace Spec2Proof

/-- Milliseconds in one day (24 * 60 * 60 * 1000). -/
def msPerDay : Int := 86400000

/-- Milliseconds in one week (1000 * 60 * 60 * 24 * 7). -/
def msPerWeek : Int := 604800000

/-- The anchor date `2025-05-05T00:00:00Z` of the 4-week cycle, in epoch
milliseconds (helpers.ts, `new Date("2025-05-05T00:00:00Z")`).  Day
number 20213 since the epoch; 20213 * 86400000 = 1746403200000. -/
def anchorMs : Int := 1746403200000

/-- JavaScript `Date.prototype.getUTCDay`: day of week of a timestamp,
0 = Sunday .. 6 = Saturday.  The epoch day 1970-01-01 was a Thursday
(= 4), and JavaScript day arithmetic floors the division by the
day length. -/
def getUTCDay (t : Int) : Int := ((t.fdiv msPerDay) + 4).emod 7

/-- The whole number of weeks from the anchor to `t`: the floor of the
millisecond difference divided by one week in milliseconds
(`Math.floor(diffMs / (1000 * 60 * 60 * 24 * 7))` in helpers.ts). -/
def weeksFromAnchor (t : Int) : Int := (t - anchorMs).fdiv msPerWeek

/-- helpers.ts `isBeginningOfCycle`: the date must be a Monday (UTC day
1) and the week offset from the anchor must be a non-negative multiple
of 4.  `Int.tmod` models the JavaScript `%` operator. -/
def isBeginningOfCycle (t : Int) : Bool :=
  if getUTCDay t ≠ 1 then false
  else
    let diffWeeks := weeksFromAnchor t
    decide (0 ≤ diffWeeks) && decide (diffWeeks.tmod 4 = 0)

/-- The `validDates` fixture list of the test suite
(helpers.spec.ts, lines 3-16), in epoch milliseconds: a date-only
string such as "2025-05-05" is parsed by `new Date` as UTC midnight.
The twelve dates are 2025-05-05, 2025-06-02, 2025-06-30, 2025-07-28,
2025-08-25, 2025-09-22, 2025-10-20, 2025-11-17, 2025-12-15,
2026-01-12, 2026-02-09 and 2026-03-09. -/
def validFixtureDates : List Int :=
  [1746403200000, 1748822400000, 1751241600000, 1753660800000,
   1756080000000, 1758499200000, 1760918400000, 1763337600000,
   1765756800000, 1768176000000, 1770595200000, 1773014400000]

/-- The `invalidDates` fixture list of the test suite
(helpers.spec.ts, lines 18-27), in epoch milliseconds: the eight dates
2025-05-12, 2025-06-09, 2025-07-01, 2025-07-07, 2025-08-04,
2025-10-06, 2025-11-10 and 2026-03-10 (off-cycle Mondays, and the
Tuesdays 2025-07-01 and 2026-03-10). -/
def invalidFixtureDates : List Int :=
  [1747008000000, 1749427200000, 1751328000000, 1751846400000,
   1754265600000, 1759708800000, 1762732800000, 1773100800000]

/-- postToCanny.ts `mergedInLast24Hours`: true when the difference
between the current time and the merge timestamp is at most 24 hours in
milliseconds.  The `Date` parsing of the input string is modelled by
taking the timestamp directly. -/
def mergedInLast24Hours (nowMs dateMs : Int) : Bool :=
  decide (nowMs - dateMs ≤ 24 * 60 * 60 * 1000)

/-- postToCanny.ts `chunkArray`: slice the array into consecutive
chunks of `chunkSize`, advancing the start index by `chunkSize` per
iteration.  A `chunkSize` of 0 never terminates in JavaScript; the
model returns `[]` in that (never exercised) case. -/
def chunkArray {α : Type} : List α → Nat → List (List α)
  | [], _ => []
  | _ :: _, 0 => []
  | x :: xs, k + 1 => (x :: xs).take (k + 1) :: chunkArray (xs.drop k) (k + 1)
termination_by l _ => l.length
decreasing_by simp [List.length_drop]; omega

/-! ## Slide pagination (monthlyReleasesSlides.ts) -/

/-- monthlyReleasesSlides.ts, line 12: the fixed capacity of bullet
points per slide. -/
def MAX_BULLETS_PER_PAGE : Nat := 6

/-- monthlyReleasesSlides.ts, line 13: the fixed capacity of images
per slide. -/
def MAX_IMAGES_PER_PAGE : Nat := 9

/-- The bullet pages of one group in `createSlides`
(monthlyReleasesSlides.ts, lines 339-343): the loop
`for (let i = 0; i < groupItems.length; i += MAX_BULLETS_PER_PAGE)`
takes `groupItems.slice(i, i + MAX_BULLETS_PER_PAGE)` per iteration,
which is exactly chunking by `MAX_BULLETS_PER_PAGE`. -/
def bulletPages (groupItems : List String) : List (List String) :=
  chunkArray groupItems MAX_BULLETS_PER_PAGE

/-- The image pages in `createSlides`
(monthlyReleasesSlides.ts, lines 388-394): the loop
`for (let i = 0; i < allImages.length; i += MAX_IMAGES_PER_PAGE)`
takes `allImages.slice(i, i + MAX_IMAGES_PER_PAGE)` per iteration. -/
def imagePages (allImages : List String) : List (List String) :=
  chunkArray allImages MAX_IMAGES_PER_PAGE

/-! ## Changelog fetch (monthlyReleasesSlides.ts) -/

/-- A Canny changelog entry: id, title, optional markdown body and
creation timestamp (epoch milliseconds). -/
structure ChangelogEntry where
  id : String
  title : String
  markdownDetails : Option String
  created : Int
deriving DecidableEq

/-- One pass of the inner loop of `fetchRecentChangelogEntries` over a
page: entries are appended until the first one whose `created` is
strictly before the cutoff; the Bool records whether the loop set
`keepGoing = false`. -/
def scanPage (cutoff : Int) : List ChangelogEntry → List ChangelogEntry × Bool
  | [] => ([], false)
  | e :: es =>
    if e.created < cutoff then ([], true)
    else
      let r := scanPage cutoff es
      (e :: r.1, r.2)

/-- The paging loop of `fetchRecentChangelogEntries`.  The remote
`entries/list` endpoint is modelled as the list of pages it would
return for successive `skip` values; an empty page (or running out of
pages) ends the loop, and a page containing an entry older than the
cutoff ends it after the entries before that entry. -/
def fetchPages (cutoff : Int) : List (List ChangelogEntry) → List ChangelogEntry
  | [] => []
  | page :: rest =>
    if page.isEmpty then []
    else
      let r := scanPage cutoff page
      if r.2 then r.1 else r.1 ++ fetchPages cutoff rest

/-- monthlyReleasesSlides.ts `fetchRecentChangelogEntries`: the cutoff
is 28 days before the time of the call
(`new Date(Date.now() - 28 * 24 * 60 * 60 * 1000)`). -/
def fetchRecentChangelogEntries (nowMs : Int)
    (pages : List (List ChangelogEntry)) : List ChangelogEntry :=
  fetchPages (nowMs - 28 * 24 * 60 * 60 * 1000) pages

/-! ## Asset rehosting (postToCanny.ts) -/

/-- Does the character list end with the given suffix. -/
def suffixEq (l suf : List Char) : Bool :=
  decide (l.drop (l.length - suf.length) = suf)

/-- postToCanny.ts `isVideo`: the URL matches `/\.(mp4|mov|webm)$/i`,
i.e. it ends in `.mp4`, `.mov` or `.webm` case-insensitively. -/
def isVideo (url : String) : Bool :=
  let l := url.data.map Char.toLower
  suffixEq l ".mp4".data || suffixEq l ".mov".data || suffixEq l ".webm".data

/-- A media asset: rehosted URL and type. -/
structure MediaAsset where
  url : String
  type : String
deriving DecidableEq

/-- The observable outcome of one rehosting attempt for an asset: did
the GitHub fetch return 2xx, the content type it reported, did the
Uploadcare upload return 2xx, and the file id Uploadcare assigned. -/
structure AssetOutcome where
  fetchOk : Bool
  contentType : String
  uploadOk : Bool
  fileId : String
deriving DecidableEq

/-- The outcome used when the network oracle has no entry left for a
URL: both calls fail. -/
def failedOutcome : AssetOutcome :=
  { fetchOk := false, contentType := "", uploadOk := false, fileId := "" }

/-- postToCanny.ts `rehydrateGitHubAssetToUploadcare`: returns `none`
when the GitHub fetch is not ok or the Uploadcare upload is not ok
(thrown errors are caught and also yield `none`); on success returns
the CDN URL built from the file id. -/
def rehydrateGitHubAssetToUploadcare (o : AssetOutcome) : Option String :=
  if o.fetchOk = false then none
  else if o.uploadOk = false then none
  else some ("https://ucarecdn.com/" ++ o.fileId ++ "/")

/-- First-match association list lookup, modelling `Map.get`. -/
def lookupA : List (String × String) → String → Option String
  | [], _ => none
  | (k, v) :: rest, u => if k = u then some v else lookupA rest u

/-- The elements already inserted into the `Set` while scanning. -/
def dedupSeen (seen : List String) : List String → List String
  | [] => []
  | x :: xs =>
    if x ∈ seen then dedupSeen seen xs
    else x :: dedupSeen (seen ++ [x]) xs

/-- `Array.from(new Set(xs))`: deduplicate keeping the first
occurrence of each element, preserving insertion order. -/
def dedupFirst (l : List String) : List String := dedupSeen [] l

/-- The run-lifetime state of the script: the `rehostCache` map
(original URL to Uploadcare URL), the log of rehost attempts (each
entry is one invocation of `rehydrateGitHubAssetToUploadcare`, i.e.
one GitHub asset fetch), the log of successful uploads, and the log of
`(originalUrl, asset)` pairs pushed to `results` across all calls. -/
structure RunState where
  cache : List (String × String)
  attempts : List String
  uploads : List String
  resultsLog : List (String × MediaAsset)
deriving DecidableEq

/-- The state at script start: `rehostCache` is a fresh empty map. -/
def initState : RunState :=
  { cache := [], attempts := [], uploads := [], resultsLog := [] }

/-- A network oracle: for each URL, the outcomes of its successive
rehost attempts during the run. -/
def Oracle : Type := String → List AssetOutcome

/-- The outcome the network produces for the next rehost attempt of
`u`: the number of earlier attempts for `u` indexes into the oracle. -/
def outcomeAt (oracle : Oracle) (s : RunState) (u : String) : AssetOutcome :=
  (oracle u).getD (s.attempts.count u) failedOutcome

/-- The body of the `for (const originalUrl of allGithubUploadUrls)`
loop in `extractMediaLinks`: a cache hit pushes the cached URL (typed
from the original URL); otherwise one rehost attempt is made, a
failure is skipped without caching, and a success is cached and pushed
(typed from the rehosted URL). -/
def processUrl (oracle : Oracle) (s : RunState) (u : String) : RunState :=
  match lookupA s.cache u with
  | some v =>
    { s with resultsLog := s.resultsLog ++
        [(u, { url := v, type := if isVideo u then "video" else "image" })] }
  | none =>
    let r := rehydrateGitHubAssetToUploadcare (outcomeAt oracle s u)
    let s1 := { s with attempts := s.attempts ++ [u] }
    match r with
    | none => s1
    | some v =>
      { s1 with
          cache := s1.cache ++ [(u, v)],
          uploads := s1.uploads ++ [u],
          resultsLog := s1.resultsLog ++
            [(u, { url := v, type := if isVideo v then "video" else "image" })] }

/-- The whole loop of `extractMediaLinks` over a list of URLs. -/
def processUrls (oracle : Oracle) (s : RunState) (urls : List String) : RunState :=
  urls.foldl (processUrl oracle) s

/-- postToCanny.ts `extractMediaLinks`: the GitHub upload URLs matched
in one PR body (given here as the ordered match list) are deduplicated
by `Array.from(new Set(...))` and then processed through the cache. -/
def extractMediaLinks (oracle : Oracle) (s : RunState) (bodyUrls : List String) : RunState :=
  processUrls oracle s (dedupFirst bodyUrls)

/-- One run of the script over the bodies of all the PRs it visits, in
order, threading the run-lifetime `rehostCache`. -/
def runBodies (oracle : Oracle) (s : RunState) (bodies : List (List String)) : RunState :=
  bodies.foldl (extractMediaLinks oracle) s

/-! ## Environment validation and exit codes (postToCanny.ts,
monthlyReleasesSlides.ts) -/

/-- JavaScript truthiness of an environment variable: `undefined` and
the empty string are falsy. -/
def truthy : Option String → Bool
  | none => false
  | some s => !(s == "")

/-- The environment variables the scripts read. -/
structure Env where
  github_token : Option String
  github_org : Option String
  uploadcare_public_key : Option String
  slack_token : Option String
  openai_api_key : Option String
  canny_api_key : Option String
deriving DecidableEq

/-- The module-level validation of postToCanny.ts, in source order:
each missing variable logs a message and exits with code 1 (the
`UPLOADCARE_PUBLIC_KEY` check throws, which also terminates the
process with exit code 1).  Returns the message of the first failing
check, or `none` when all pass. -/
def validatePostToCannyEnv (e : Env) : Option String :=
  if truthy e.github_token = false then
    some "❌ Missing GITHUB_TOKEN environment variable."
  else if truthy e.github_org = false then
    some "❌ Missing GITHUB_ORG environment variable."
  else if truthy e.uploadcare_public_key = false then
    some "❌ Missing UPLOADCARE_PUBLIC_KEY"
  else if truthy e.slack_token = false then
    some "❌ Missing SLACK_TOKEN environment variable."
  else none

/-- monthlyReleasesSlides.ts `validateEnvVars` (lines 613-625), in
source order: a missing `OPENAI_API_KEY`, `CANNY_API_KEY` or
`SLACK_TOKEN` throws; the throw is caught by `main().catch`, which
exits with code 1.  Returns the message of the first failing check, or
`none` when all pass. -/
def validateSlidesEnv (e : Env) : Option String :=
  if truthy e.openai_api_key = false then
    some "Missing required env variable: OPENAI_API_KEY"
  else if truthy e.canny_api_key = false then
    some "Missing required env variable: CANNY_API_KEY"
  else if truthy e.slack_token = false then
    some "Missing required env variable: SLACK_TOKEN"
  else none

/-- The remote calls the postToCanny.ts script can make. -/
inductive Effect where
  | fetchRepos
  | fetchPRs
  | openaiCall
  | cannyPost
  | slackPost
deriving DecidableEq

/-- The remote responses one run of postToCanny.ts observes:
the repository listing (GitHub error text or repository names), the
per-repository section `processRepo` produces (`none` when the
repository had no freshly merged PRs), the Canny create response
(error or entry id) and whether the Slack post succeeded. -/
structure Api where
  reposResult : Except String (List String)
  repoDetails : String → Option String
  cannyResult : Except String String
  slackOk : Bool

/-- One run of postToCanny.ts: exit code and the remote calls made, in
order.  Module-level env validation runs before `main()` is invoked,
so a validation failure exits 1 before any remote call.  `getRepos`
exits 1 on a GitHub error.  An empty `details` returns early (exit 0).
`postToCanny` exits 1 on an error response; a Slack failure is caught
and logged, so the run still exits 0. -/
def runPostToCannyScript (e : Env) (api : Api) : Nat × List Effect :=
  match validatePostToCannyEnv e with
  | some _ => (1, [])
  | none =>
    match api.reposResult with
    | Except.error _ => (1, [Effect.fetchRepos])
    | Except.ok repos =>
      let sections := repos.filterMap api.repoDetails
      let effs := Effect.fetchRepos :: repos.map (fun _ => Effect.fetchPRs)
      if (String.join sections).trim = "" then (0, effs)
      else
        match api.cannyResult with
        | Except.error _ => (1, effs ++ [Effect.openaiCall, Effect.cannyPost])
        | Except.ok _ => (0, effs ++ [Effect.openaiCall, Effect.cannyPost, Effect.slackPost])

/-! ## Cycle gate of the monthly slides script -/

/-- The remote calls the monthly slides script can make. -/
inductive SlideEffect where
  | fetchChangelog
  | summarize
  | createPresentation
  | postSlack
deriving DecidableEq

/-- The remote responses one gated run would observe. -/
structure SlidesApi where
  entries : List ChangelogEntry

/-- monthlyReleasesSlides.ts `shouldRun` (lines 607-611): apply the
4-week cycle predicate to the invocation time `new Date()`. -/
def shouldRun (nowMs : Int) : Bool := isBeginningOfCycle nowMs

/-- monthlyReleasesSlides.ts `main` (lines 95-129), wrapped in
`main().catch` which exits 1 on a throw: validate the environment
(throw exits 1 with no remote call), return if `shouldRun()` is false,
fetch changelog entries, return if there are none, then summarize,
create the presentation and post to Slack.  Result: exit code and the
remote calls made. -/
def runSlidesMain (e : Env) (nowMs : Int) (api : SlidesApi) : Nat × List SlideEffect :=
  match validateSlidesEnv e with
  | some _ => (1, [])
  | none =>
    if shouldRun nowMs = false then (0, [])
    else if api.entries.isEmpty then (0, [SlideEffect.fetchChangelog])
    else (0, [SlideEffect.fetchChangelog, SlideEffect.summarize,
              SlideEffect.createPresentation, SlideEffect.postSlack])

/-! ## Issue aggregation by author (weekly story points script,
helpers.spec.ts lines 98-128) -/

/-- The `size` field of an issue's project data: a string or a number
(`string | number` in the source; numeric story-point sizes are
modelled as integers). -/
inductive SizeVal where
  | str (s : String)
  | num (n : Int)
deriving DecidableEq

/-- A closed issue as `aggregateIssuesByAuthor` reads it: issue
number, optional author login (`issue.author?.login`) and optional
project-data size (`issue.projectData?.size`). -/
structure Issue where
  number : Nat
  author : Option String
  size : Option SizeVal
deriving DecidableEq

/-- The grouping key `issue.author?.login ?? "unknown"`. -/
def authorKey (i : Issue) : String := i.author.getD "unknown"

/-- The numeric value of a run of decimal digits. -/
def digitsToNat (l : List Char) : Nat :=
  l.foldl (fun n c => n * 10 + (c.toNat - 48)) 0

/-- JavaScript `parseInt(s, 10)`: skip leading whitespace, accept one
optional sign, then read the longest leading run of decimal digits;
the result is `none` (NaN) when no digit follows, and any trailing
non-digit characters are ignored. -/
def jsParseInt (l : List Char) : Option Int :=
  match l.dropWhile (fun c => c.isWhitespace) with
  | '-' :: rest =>
    let ds := rest.takeWhile (fun c => c.isDigit)
    if ds.isEmpty then none else some (-(digitsToNat ds : Int))
  | '+' :: rest =>
    let ds := rest.takeWhile (fun c => c.isDigit)
    if ds.isEmpty then none else some ((digitsToNat ds : Int))
  | rest =>
    let ds := rest.takeWhile (fun c => c.isDigit)
    if ds.isEmpty then none else some ((digitsToNat ds : Int))

/-- The size of one issue (helpers.spec.ts, lines 105-109): a string
size is `parseInt(size, 10) || 0` (NaN gives 0, and a parsed 0 is
already 0); a numeric size is taken as is; an absent size counts as 0
via `?? 0`. -/
def issueSize (i : Issue) : Int :=
  match i.size with
  | none => 0
  | some (SizeVal.num n) => n
  | some (SizeVal.str s) =>
    match jsParseInt s.data with
    | none => 0
    | some v => v

/-- Aggregate per-author statistics: author name, aggregate size and
the list of that author's issues. -/
structure AuthorStats where
  author : String
  totalSize : Int
  issues : List Issue
deriving DecidableEq

/-- One `issues.forEach` step of `aggregateIssuesByAuthor`: the record
of the issue's author key is updated (size added, issue appended), and
a previously unseen author gets a fresh record at the end, matching
the insertion-order semantics of the `authorStats` object (author
logins are taken to be non-numeric strings, whose object iteration
order is insertion order). -/
def addIssue (i : Issue) : List AuthorStats → List AuthorStats
  | [] => [{ author := authorKey i, totalSize := issueSize i, issues := [i] }]
  | st :: rest =>
    if st.author = authorKey i then
      { author := st.author
        totalSize := st.totalSize + issueSize i
        issues := st.issues ++ [i] } :: rest
    else st :: addIssue i rest

/-- Insert a record into a list sorted by `totalSize` descending,
after every record whose `totalSize` is greater than or equal to its
own: the position a stable sort assigns. -/
def insertBySizeDesc (st : AuthorStats) : List AuthorStats → List AuthorStats
  | [] => [st]
  | x :: xs =>
    if x.totalSize < st.totalSize then st :: x :: xs
    else x :: insertBySizeDesc st xs

/-- Stable sort by `totalSize` descending, modelling
`Object.entries(authorStats).sort(([, a], [, b]) => b.totalSize - a.totalSize)`
(`Array.prototype.sort` is stable). -/
def sortBySizeDesc (l : List AuthorStats) : List AuthorStats :=
  l.foldl (fun acc st => insertBySizeDesc st acc) []

/-- helpers.spec.ts `aggregateIssuesByAuthor` (lines 98-128): fold the
closed issues into per-author records — author key with fallback
"unknown", sizes summed with parseInt-or-0 semantics, issues appended
in input order — then sort the records by total size descending. -/
def aggregateIssuesByAuthor (issues : List Issue) : List AuthorStats :=
  sortBySizeDesc (issues.foldl (fun acc i => addIssue i acc) [])

/-! ## Helper lemmas about `chunkArray` -/

theorem chunkArray_cons {α : Type} (x : α) (xs : List α) (k : Nat) :
    chunkArray (x :: xs) (k + 1)
      = (x :: xs).take (k + 1) :: chunkArray (xs.drop k) (k + 1) := by
  simp [chunkArray]

theorem chunkArray_flatten {α : Type} (l : List α) (k : Nat) (hk : k ≠ 0) :
    (chunkArray l k).flatten = l := by
  revert hk
  induction l, k using chunkArray.induct with
  | case1 k => intro hk; simp [chunkArray]
  | case2 x xs => intro hk; exact absurd rfl hk
  | case3 x xs k ih =>
    intro hk
    rw [chunkArray_cons, List.flatten_cons, ih (Nat.succ_ne_zero k)]
    have hd : List.drop k xs = List.drop (k + 1) (x :: xs) := rfl
    rw [hd]
    exact List.take_append_drop _ _

theorem chunkArray_length {α : Type} (l : List α) (k : Nat) (hk : k ≠ 0) :
    (chunkArray l k).length = (l.length + k - 1) / k := by
  revert hk
  induction l, k using chunkArray.induct with
  | case1 k =>
    intro hk
    have : (k - 1) / k = 0 := Nat.div_eq_of_lt (by omega)
    simp [chunkArray, this]
  | case2 x xs => intro hk; exact absurd rfl hk
  | case3 x xs k ih =>
    intro hk
    rw [chunkArray_cons]
    simp only [List.length_cons, ih (Nat.succ_ne_zero k), List.length_drop]
    rcases Nat.lt_or_ge xs.length k with h | h
    · have h1 : xs.length - k = 0 := by omega
      have h2 : (xs.length + 1 + (k + 1) - 1) / (k + 1) = 1 :=
        Nat.div_eq_of_lt_le (by omega) (by omega)
      rw [h1, h2]
      simp [Nat.div_eq_of_lt (show k < k + 1 by omega)]
    · have h3 : xs.length + 1 + (k + 1) - 1
          = (xs.length - k + (k + 1) - 1) + (k + 1) := by omega
      rw [h3, Nat.add_div_right _ (Nat.succ_pos k)]

theorem chunkArray_eq_nil_iff {α : Type} (l : List α) (k : Nat) (hk : k ≠ 0) :
    chunkArray l k = [] ↔ l = [] := by
  cases l with
  | nil => simp [chunkArray]
  | cons x xs =>
    cases k with
    | zero => exact absurd rfl hk
    | succ k => rw [chunkArray_cons]; simp

theorem chunkArray_mem_length {α : Type} (l : List α) (k : Nat) (hk : k ≠ 0) :
    ∀ c ∈ chunkArray l k, 1 ≤ c.length ∧ c.length ≤ k := by
  revert hk
  induction l, k using chunkArray.induct with
  | case1 k => intro hk; simp [chunkArray]
  | case2 x xs => intro hk; exact absurd rfl hk
  | case3 x xs k ih =>
    intro hk c hc
    rw [chunkArray_cons] at hc
    rcases List.mem_cons.mp hc with h | h
    · subst h
      constructor
      · simp [List.length_take]
      · simp [List.length_take]
    · exact ih (Nat.succ_ne_zero k) c h

theorem chunkArray_dropLast_length {α : Type} (l : List α) (k : Nat) (hk : k ≠ 0) :
    ∀ c ∈ (chunkArray l k).dropLast, c.length = k := by
  revert hk
  induction l, k using chunkArray.induct with
  | case1 k => intro hk; simp [chunkArray]
  | case2 x xs => intro hk; exact absurd rfl hk
  | case3 x xs k ih =>
    intro hk c hc
    rw [chunkArray_cons] at hc
    rcases hrest : chunkArray (xs.drop k) (k + 1) with _ | ⟨r, rs⟩
    · rw [hrest] at hc; simp at hc
    · rw [hrest] at hc
      rcases List.mem_cons.mp
          ((by simpa using hc : c ∈ (x :: xs).take (k + 1) :: (r :: rs).dropLast)) with h | h
      · subst h
        have hne : xs.drop k ≠ [] := by
          intro hnil
          rw [hnil] at hrest
          simp [chunkArray] at hrest
        have hlen : k ≤ xs.length := by
          by_contra hlt
          exact hne (List.drop_eq_nil_of_le (by omega))
        simp [List.length_take]
        omega
      · exact ih (Nat.succ_ne_zero k) c (hrest ▸ h)

/-! ## Claim theorems: cycle predicate, chunking, timestamps -/

/-- Claim C1: `isBeginningOfCycle` returns true exactly on UTC Mondays
whose whole-week offset from the 2025-05-05 anchor (floor of the
millisecond difference over one week) is non-negative and divisible by
4; in particular it is false for every date before the anchor and for
every non-Monday, true on each valid fixture date and false on each
invalid fixture date. -/
theorem c1_isBeginningOfCycle_spec :
    (∀ t : Int, isBeginningOfCycle t = true ↔
      (getUTCDay t = 1 ∧ 0 ≤ weeksFromAnchor t ∧ (4 : Int) ∣ weeksFromAnchor t))
  ∧ (∀ t : Int, t < anchorMs → isBeginningOfCycle t = false)
  ∧ (∀ t : Int, getUTCDay t ≠ 1 → isBeginningOfCycle t = false)
  ∧ validFixtureDates.all isBeginningOfCycle = true
  ∧ invalidFixtureDates.all (fun t => !(isBeginningOfCycle t)) = true := by
  refine ⟨?_, ?_, ?_, by decide, by decide⟩
  · intro t
    by_cases h : getUTCDay t = 1
    · simp only [isBeginningOfCycle, h, if_neg (by simp : ¬(1 : Int) ≠ 1)]
      simp only [Bool.and_eq_true, decide_eq_true_eq]
      constructor
      · rintro ⟨h0, hm⟩
        refine ⟨by trivial, h0, ?_⟩
        rw [Int.tmod_eq_emod h0 (by norm_num)] at hm
        exact Int.dvd_of_emod_eq_zero hm
      · rintro ⟨-, h0, hd⟩
        refine ⟨h0, ?_⟩
        rw [Int.tmod_eq_emod h0 (by norm_num)]
        exact Int.emod_eq_zero_of_dvd hd
    · simp [isBeginningOfCycle, h]
  · intro t ht
    have hw : weeksFromAnchor t < 0 := by
      have hpos : (0 : Int) < msPerWeek := by decide
      unfold weeksFromAnchor
      rw [Int.fdiv_eq_ediv _ (le_of_lt hpos)]
      exact Int.ediv_neg' (by unfold anchorMs at ht ⊢; omega) hpos
    by_cases h : getUTCDay t = 1
    · have hnot : ¬ (0 ≤ weeksFromAnchor t) := by omega
      simp [isBeginningOfCycle, h, hnot]
    · simp [isBeginningOfCycle, h]
  · intro t h
    simp [isBeginningOfCycle, h]

/-- Witness for C1 at a concrete input: 2025-05-04 (one day before the
anchor) is rejected. -/
theorem c1_witness : isBeginningOfCycle 1746316800000 = false :=
  c1_isBeginningOfCycle_spec.2.1 1746316800000 (by decide)

/-- Claim C3: `chunkArray` returns exactly ceil(N/k) contiguous
chunks, each of length k except possibly the last (of length between 1
and k), and concatenating them gives back the input: nothing is
reordered, dropped, duplicated or rebalanced. -/
theorem c3_chunkArray_spec {α : Type} (xs : List α) (k : Nat) (hk : 1 ≤ k) :
    (chunkArray xs k).length = (xs.length + k - 1) / k
  ∧ (chunkArray xs k).flatten = xs
  ∧ (∀ c ∈ (chunkArray xs k).dropLast, c.length = k)
  ∧ (∀ c ∈ chunkArray xs k, 1 ≤ c.length ∧ c.length ≤ k) := by
  have hk0 : k ≠ 0 := by omega
  exact ⟨chunkArray_length xs k hk0, chunkArray_flatten xs k hk0,
    chunkArray_dropLast_length xs k hk0, chunkArray_mem_length xs k hk0⟩

/-- Witness for C3 at a concrete input. -/
theorem c3_witness : (chunkArray [1, 2, 3, 4, 5] 2).flatten = [1, 2, 3, 4, 5] :=
  (c3_chunkArray_spec [1, 2, 3, 4, 5] 2 (by decide)).2.1

/-- Claim C2: slide pagination places at most
`MAX_BULLETS_PER_PAGE` = 6 bullets per bullet slide and at most
`MAX_IMAGES_PER_PAGE` = 9 images per image slide, chunking the input
in order of occurrence. -/
theorem c2_pagination_spec (groupItems allImages : List String) :
    (∀ p ∈ bulletPages groupItems, 1 ≤ p.length ∧ p.length ≤ MAX_BULLETS_PER_PAGE)
  ∧ (bulletPages groupItems).flatten = groupItems
  ∧ (∀ p ∈ imagePages allImages, 1 ≤ p.length ∧ p.length ≤ MAX_IMAGES_PER_PAGE)
  ∧ (imagePages allImages).flatten = allImages := by
  refine ⟨?_, ?_, ?_, ?_⟩
  · exact chunkArray_mem_length groupItems MAX_BULLETS_PER_PAGE (by decide)
  · exact chunkArray_flatten groupItems MAX_BULLETS_PER_PAGE (by decide)
  · exact chunkArray_mem_length allImages MAX_IMAGES_PER_PAGE (by decide)
  · exact chunkArray_flatten allImages MAX_IMAGES_PER_PAGE (by decide)

/-- Witness for C2 at a concrete input: a 7-item group paginates as a
full page of 6 bullets followed by a page of 1, and the first page has
between 1 and 6 bullets. -/
theorem c2_witness :
    1 ≤ (["a", "b", "c", "d", "e", "f"] : List String).length
  ∧ (["a", "b", "c", "d", "e", "f"] : List String).length ≤ MAX_BULLETS_PER_PAGE :=
  (c2_pagination_spec ["a", "b", "c", "d", "e", "f", "g"] []).1 _
    (by simp [bulletPages, MAX_BULLETS_PER_PAGE, chunkArray])

/-- Claim C9: `mergedInLast24Hours` is true exactly when now minus the
timestamp is at most 24 hours, with no lower bound; every strictly
future timestamp gives a negative difference and is accepted. -/
theorem c9_mergedInLast24Hours_spec :
    (∀ nowMs dateMs : Int,
      mergedInLast24Hours nowMs dateMs = true ↔ nowMs - dateMs ≤ 24 * 60 * 60 * 1000)
  ∧ (∀ nowMs dateMs : Int, nowMs < dateMs → mergedInLast24Hours nowMs dateMs = true) := by
  constructor
  · intro nowMs dateMs
    simp [mergedInLast24Hours]
  · intro nowMs dateMs h
    simp only [mergedInLast24Hours, decide_eq_true_eq]
    omega

/-- Witness for C9 at a concrete input: a merge timestamp one thousand
years in the future counts as merged in the last 24 hours. -/
theorem c9_witness : mergedInLast24Hours 0 31536000000000 = true :=
  c9_mergedInLast24Hours_spec.2 0 31536000000000 (by decide)

/-! ## Changelog window lemmas -/

theorem scanPage_mem (cutoff : Int) (page : List ChangelogEntry) :
    ∀ e ∈ (scanPage cutoff page).1, cutoff ≤ e.created := by
  induction page with
  | nil => simp [scanPage]
  | cons a as ih =>
    intro e he
    by_cases h : a.created < cutoff
    · simp [scanPage, h] at he
    · simp only [scanPage, if_neg h] at he
      rcases List.mem_cons.mp he with rfl | hmem
      · omega
      · exact ih e hmem

theorem fetchPages_mem (cutoff : Int) (pages : List (List ChangelogEntry)) :
    ∀ e ∈ fetchPages cutoff pages, cutoff ≤ e.created := by
  induction pages with
  | nil => simp [fetchPages]
  | cons page rest ih =>
    intro e he
    by_cases hemp : page.isEmpty
    · simp [fetchPages, hemp] at he
    · simp only [fetchPages, hemp, Bool.false_eq_true, if_false] at he
      by_cases hstop : (scanPage cutoff page).2
      · rw [if_pos hstop] at he
        exact scanPage_mem cutoff page e he
      · rw [if_neg hstop] at he
        rcases List.mem_append.mp he with h | h
        · exact scanPage_mem cutoff page e h
        · exact ih e h

/-- Claim C10: every entry returned by `fetchRecentChangelogEntries`
was created no earlier than 28 days before the time of the call; the
window check happens before an entry is appended and pagination stops
at the first out-of-window entry, so no out-of-window entry is ever
included. -/
theorem c10_fetchRecent_window (nowMs : Int) (pages : List (List ChangelogEntry)) :
    ∀ e ∈ fetchRecentChangelogEntries nowMs pages,
      nowMs - 28 * 24 * 60 * 60 * 1000 ≤ e.created := by
  intro e he
  exact fetchPages_mem _ pages e he

/-- Witness for C10 at a concrete input: an entry created exactly at
the call time is returned and lies inside the window. -/
theorem c10_witness :
    (⟨"id1", "t1", none, 0⟩ : ChangelogEntry)
      ∈ fetchRecentChangelogEntries 0 [[⟨"id1", "t1", none, 0⟩]]
  ∧ (0 : Int) - 28 * 24 * 60 * 60 * 1000
      ≤ (⟨"id1", "t1", none, 0⟩ : ChangelogEntry).created :=
  ⟨by decide, c10_fetchRecent_window 0 [[⟨"id1", "t1", none, 0⟩]] _ (by decide)⟩

/-! ## Rehost cache lemmas -/

theorem lookupA_append (c d : List (String × String)) (u : String) :
    lookupA (c ++ d) u
      = match lookupA c u with
        | some v => some v
        | none => lookupA d u := by
  induction c with
  | nil => simp [lookupA]
  | cons p rest ih =>
    by_cases h : p.1 = u
    · simp [lookupA, h]
    · simp only [List.cons_append, lookupA, if_neg h]
      exact ih

theorem lookupA_eq_none_iff (c : List (String × String)) (u : String) :
    lookupA c u = none ↔ u ∉ c.map Prod.fst := by
  induction c with
  | nil => simp [lookupA]
  | cons p rest ih =>
    by_cases h : p.1 = u
    · simp [lookupA, h]
    · simp only [lookupA, if_neg h, List.map_cons, List.mem_cons, ih]
      constructor
      · intro hn hor
        rcases hor with hor | hor
        · exact h hor.symm
        · exact hn hor
      · intro hn hmem
        exact hn (Or.inr hmem)

/-- The run invariant: a cached URL was uploaded exactly once, an
uncached URL never, every result pushed agrees with the current cache
entry for its original URL, and cache keys are unique. -/
def RunInv (s : RunState) : Prop :=
  (∀ u v, lookupA s.cache u = some v → s.uploads.count u = 1)
  ∧ (∀ u, lookupA s.cache u = none → s.uploads.count u = 0)
  ∧ (∀ p ∈ s.resultsLog, lookupA s.cache p.1 = some p.2.url)
  ∧ (s.cache.map Prod.fst).Nodup

theorem count_append_singleton (l : List String) (u w : String) :
    (l ++ [u]).count w = l.count w + (if u = w then 1 else 0) := by
  rw [List.count_append]
  by_cases h : u = w
  · simp [h, List.count_singleton]
  · simp [List.count_cons, List.count_nil, h]

theorem runInv_init : RunInv initState := by
  refine ⟨?_, ?_, ?_, ?_⟩
  · intro u v h; simp [initState, lookupA] at h
  · intro u h; simp [initState]
  · intro p hp; simp [initState] at hp
  · simp [initState]

theorem runInv_processUrl (oracle : Oracle) (s : RunState) (u : String)
    (hs : RunInv s) : RunInv (processUrl oracle s u) := by
  obtain ⟨h1, h2, h3, h4⟩ := hs
  rcases hcache : lookupA s.cache u with _ | v
  · rcases hre : rehydrateGitHubAssetToUploadcare (outcomeAt oracle s u) with _ | v
    · -- cache miss, rehost failure: only the attempt log grows
      simp only [processUrl, hcache, hre]
      exact ⟨h1, h2, h3, h4⟩
    · -- cache miss, rehost success: the pair is cached and logged
      simp only [processUrl, hcache, hre]
      refine ⟨?_, ?_, ?_, ?_⟩
      · intro w x hw
        rw [lookupA_append] at hw
        rcases hold : lookupA s.cache w with _ | y
        · rw [hold] at hw
          simp only [lookupA] at hw
          by_cases hwu : u = w
          · rw [count_append_singleton, if_pos hwu, h2 w hold]
          · rw [if_neg hwu] at hw; exact absurd hw (by simp)
        · rw [hold] at hw
          rw [count_append_singleton, h1 w y hold]
          have hwu : ¬ u = w := by
            intro h; subst h; rw [hold] at hcache; exact absurd hcache (by simp)
          rw [if_neg hwu]
      · intro w hw
        rw [lookupA_append] at hw
        rcases hold : lookupA s.cache w with _ | y
        · rw [hold] at hw
          simp only [lookupA] at hw
          by_cases hwu : u = w
          · rw [if_pos hwu] at hw; exact absurd hw (by simp)
          · rw [count_append_singleton, if_neg hwu, h2 w hold]
        · rw [hold] at hw; exact absurd hw (by simp)
      · intro p hp
        rcases List.mem_append.mp hp with hmem | hmem
        · rw [lookupA_append, h3 p hmem]
        · rcases List.mem_singleton.mp hmem with rfl
          rw [lookupA_append, hcache]
          simp [lookupA]
      · rw [List.map_append]
        simp only [List.map_cons, List.map_nil]
        rw [List.nodup_append]
        refine ⟨h4, List.nodup_singleton u, ?_⟩
        intro a ha hb
        rcases List.mem_singleton.mp hb with rfl
        exact ((lookupA_eq_none_iff s.cache a).mp hcache) ha
  · -- cache hit: only the result log grows, with the cached URL
    simp only [processUrl, hcache]
    refine ⟨h1, h2, ?_, h4⟩
    intro p hp
    rcases List.mem_append.mp hp with hmem | hmem
    · exact h3 p hmem
    · rcases List.mem_singleton.mp hmem with rfl
      exact hcache

theorem runInv_processUrls (oracle : Oracle) (urls : List String) :
    ∀ s : RunState, RunInv s → RunInv (processUrls oracle s urls) := by
  induction urls with
  | nil => intro s hs; exact hs
  | cons u rest ih =>
    intro s hs
    exact ih (processUrl oracle s u) (runInv_processUrl oracle s u hs)

theorem runInv_runBodies (oracle : Oracle) (bodies : List (List String)) :
    ∀ s : RunState, RunInv s → RunInv (runBodies oracle s bodies) := by
  induction bodies with
  | nil => intro s hs; exact hs
  | cons b rest ih =>
    intro s hs
    exact ih (extractMediaLinks oracle s b)
      (runInv_processUrls oracle (dedupFirst b) s hs)

/-- A network that fails the first rehost attempt of every URL and
succeeds on the second. -/
def retryOracle : Oracle := fun _ =>
  [failedOutcome,
   { fetchOk := true, contentType := "image/png", uploadOk := true, fileId := "abc123" }]

/-- Two PR bodies referencing the same GitHub upload URL. -/
def retryBodies : List (List String) :=
  [["https://github.com/user-attachments/assets/a1"],
   ["https://github.com/user-attachments/assets/a1"]]

/-- Counterexample to C4 as stated: when the first rehost attempt for
a URL fails, the URL is not cached, so a second PR body referencing
the same URL fetches the asset again — two fetch attempts for one
original URL in one run. -/
theorem c4_counterexample :
    ¬ ((runBodies retryOracle initState retryBodies).attempts.count
        "https://github.com/user-attachments/assets/a1" ≤ 1) := by
  decide

/-- A network that succeeds on the first attempt of every URL. -/
def successOracle : Oracle := fun _ =>
  [{ fetchOk := true, contentType := "image/png", uploadOk := true, fileId := "f1" }]

/-- Claim C4 (amended: only successfully rehosted URLs are
deduplicated; a URL whose rehosting fails is not cached and may be
fetched again on a later reference): during one run each original URL
is successfully uploaded to the CDN at most once, every original URL
in the run-lifetime `rehostCache` maps to a single rehosted URL, and
every reference to the same original URL yields that same rehosted
URL. -/
theorem c4_rehost_dedup_spec (oracle : Oracle) (bodies : List (List String)) :
    (∀ u, (runBodies oracle initState bodies).uploads.count u ≤ 1)
  ∧ (∀ u a b, (u, a) ∈ (runBodies oracle initState bodies).resultsLog →
      (u, b) ∈ (runBodies oracle initState bodies).resultsLog → a.url = b.url)
  ∧ ((runBodies oracle initState bodies).cache.map Prod.fst).Nodup := by
  obtain ⟨h1, h2, h3, h4⟩ := runInv_runBodies oracle bodies initState runInv_init
  refine ⟨?_, ?_, h4⟩
  · intro u
    rcases hc : lookupA (runBodies oracle initState bodies).cache u with _ | v
    · rw [h2 u hc]; omega
    · rw [h1 u v hc]
  · intro u a b ha hb
    have hva := h3 (u, a) ha
    have hvb := h3 (u, b) hb
    rw [hva] at hvb
    exact Option.some_inj.mp hvb

/-- Witness for C4 at a concrete input: both references to the URL
"u" in two bodies yield the same rehosted URL. -/
theorem c4_witness :
    ({ url := "https://ucarecdn.com/f1/", type := "image" } : MediaAsset).url
      = ({ url := "https://ucarecdn.com/f1/", type := "image" } : MediaAsset).url :=
  (c4_rehost_dedup_spec successOracle [["u"], ["u"]]).2.1 "u" _ _
    (by decide) (by decide)

/-- Claim C5: a failed fetch or upload makes
`rehydrateGitHubAssetToUploadcare` return `none`, and
`extractMediaLinks` then skips the asset — no result is pushed,
nothing is cached or counted as uploaded — and continues with the
remaining URLs; the run goes on. -/
theorem c5_failure_skipped_spec :
    (∀ o : AssetOutcome, o.fetchOk = false ∨ o.uploadOk = false →
      rehydrateGitHubAssetToUploadcare o = none)
  ∧ (∀ (oracle : Oracle) (s : RunState) (u : String) (rest : List String),
      lookupA s.cache u = none →
      rehydrateGitHubAssetToUploadcare (outcomeAt oracle s u) = none →
        processUrls oracle s (u :: rest)
          = processUrls oracle { s with attempts := s.attempts ++ [u] } rest
      ∧ (processUrl oracle s u).resultsLog = s.resultsLog
      ∧ (processUrl oracle s u).cache = s.cache
      ∧ (processUrl oracle s u).uploads = s.uploads) := by
  constructor
  · intro o h
    rcases h with h | h
    · simp [rehydrateGitHubAssetToUploadcare, h]
    · by_cases hf : o.fetchOk = false <;>
        simp [rehydrateGitHubAssetToUploadcare, hf, h]
  · intro oracle s u rest hmiss hfail
    have hstep : processUrl oracle s u = { s with attempts := s.attempts ++ [u] } := by
      simp only [processUrl, hmiss, hfail]
    refine ⟨?_, ?_, ?_, ?_⟩
    · show (u :: rest).foldl (processUrl oracle) s = _
      rw [List.foldl_cons, hstep]
      rfl
    · rw [hstep]
    · rw [hstep]
    · rw [hstep]

/-- Witness for C5 at a concrete input: with an uncached URL whose
attempt fails, the loop proceeds to the rest with only the attempt
recorded. -/
theorem c5_witness :
    rehydrateGitHubAssetToUploadcare failedOutcome = none :=
  c5_failure_skipped_spec.1 failedOutcome (Or.inl (by decide))

/-! ## Environment validation claim -/

/-- Claim C6: each required configuration variable that is unset makes
the owning script abort with its descriptive message and exit code 1
before any remote call (the checks run in source order, so each case
is stated under the earlier checks passing): GITHUB_TOKEN, GITHUB_ORG,
UPLOADCARE_PUBLIC_KEY and SLACK_TOKEN for the changelog script, and
OPENAI_API_KEY, CANNY_API_KEY and SLACK_TOKEN for the slides script;
with validation passing, a GitHub listing error exits 1, a no-op run
(no fresh PRs) exits 0, a Canny error exits 1 and a successful post
exits 0. -/
theorem c6_env_validation_spec :
    (∀ (e : Env) (api : Api), e.github_token = none →
        validatePostToCannyEnv e = some "❌ Missing GITHUB_TOKEN environment variable."
      ∧ runPostToCannyScript e api = (1, []))
  ∧ (∀ (e : Env) (api : Api), truthy e.github_token = true → e.github_org = none →
        validatePostToCannyEnv e = some "❌ Missing GITHUB_ORG environment variable."
      ∧ runPostToCannyScript e api = (1, []))
  ∧ (∀ (e : Env) (api : Api), truthy e.github_token = true →
        truthy e.github_org = true → e.uploadcare_public_key = none →
        validatePostToCannyEnv e = some "❌ Missing UPLOADCARE_PUBLIC_KEY"
      ∧ runPostToCannyScript e api = (1, []))
  ∧ (∀ (e : Env) (api : Api), truthy e.github_token = true →
        truthy e.github_org = true → truthy e.uploadcare_public_key = true →
        e.slack_token = none →
        validatePostToCannyEnv e = some "❌ Missing SLACK_TOKEN environment variable."
      ∧ runPostToCannyScript e api = (1, []))
  ∧ (∀ (e : Env) (nowMs : Int) (sapi : SlidesApi), e.openai_api_key = none →
        validateSlidesEnv e = some "Missing required env variable: OPENAI_API_KEY"
      ∧ runSlidesMain e nowMs sapi = (1, []))
  ∧ (∀ (e : Env) (nowMs : Int) (sapi : SlidesApi), truthy e.openai_api_key = true →
        e.canny_api_key = none →
        validateSlidesEnv e = some "Missing required env variable: CANNY_API_KEY"
      ∧ runSlidesMain e nowMs sapi = (1, []))
  ∧ (∀ (e : Env) (nowMs : Int) (sapi : SlidesApi), truthy e.openai_api_key = true →
        truthy e.canny_api_key = true → e.slack_token = none →
        validateSlidesEnv e = some "Missing required env variable: SLACK_TOKEN"
      ∧ runSlidesMain e nowMs sapi = (1, []))
  ∧ (∀ (e : Env) (api : Api) (t : String), validatePostToCannyEnv e = none →
        api.reposResult = Except.error t → (runPostToCannyScript e api).1 = 1)
  ∧ (∀ (e : Env) (api : Api) (repos : List String), validatePostToCannyEnv e = none →
        api.reposResult = Except.ok repos →
        (String.join (repos.filterMap api.repoDetails)).trim = "" →
        (runPostToCannyScript e api).1 = 0)
  ∧ (∀ (e : Env) (api : Api) (repos : List String) (t : String),
        validatePostToCannyEnv e = none → api.reposResult = Except.ok repos →
        ¬ (String.join (repos.filterMap api.repoDetails)).trim = "" →
        api.cannyResult = Except.error t → (runPostToCannyScript e api).1 = 1)
  ∧ (∀ (e : Env) (api : Api) (repos : List String) (entryId : String),
        validatePostToCannyEnv e = none → api.reposResult = Except.ok repos →
        ¬ (String.join (repos.filterMap api.repoDetails)).trim = "" →
        api.cannyResult = Except.ok entryId → (runPostToCannyScript e api).1 = 0) := by
  refine ⟨?_, ?_, ?_, ?_, ?_, ?_, ?_, ?_, ?_, ?_, ?_⟩
  · intro e api h
    constructor
    · simp [validatePostToCannyEnv, truthy, h]
    · simp [runPostToCannyScript, validatePostToCannyEnv, truthy, h]
  · intro e api h1 h
    have h0 : truthy e.github_org = false := by simp [truthy, h]
    constructor
    · simp [validatePostToCannyEnv, h1, h0]
    · simp [runPostToCannyScript, validatePostToCannyEnv, h1, h0]
  · intro e api h1 h2 h
    have h0 : truthy e.uploadcare_public_key = false := by simp [truthy, h]
    constructor
    · simp [validatePostToCannyEnv, h1, h2, h0]
    · simp [runPostToCannyScript, validatePostToCannyEnv, h1, h2, h0]
  · intro e api h1 h2 h3 h
    have h0 : truthy e.slack_token = false := by simp [truthy, h]
    constructor
    · simp [validatePostToCannyEnv, h1, h2, h3, h0]
    · simp [runPostToCannyScript, validatePostToCannyEnv, h1, h2, h3, h0]
  · intro e nowMs sapi h
    constructor
    · simp [validateSlidesEnv, truthy, h]
    · simp [runSlidesMain, validateSlidesEnv, truthy, h]
  · intro e nowMs sapi h1 h
    have h0 : truthy e.canny_api_key = false := by simp [truthy, h]
    constructor
    · simp [validateSlidesEnv, h1, h0]
    · simp [runSlidesMain, validateSlidesEnv, h1, h0]
  · intro e nowMs sapi h1 h2 h
    have h0 : truthy e.slack_token = false := by simp [truthy, h]
    constructor
    · simp [validateSlidesEnv, h1, h2, h0]
    · simp [runSlidesMain, validateSlidesEnv, h1, h2, h0]
  · intro e api t hv hr
    simp [runPostToCannyScript, hv, hr]
  · intro e api repos hv hr ht
    simp [runPostToCannyScript, hv, hr, ht]
  · intro e api repos t hv hr ht hc
    simp [runPostToCannyScript, hv, hr, ht, hc]
  · intro e api repos entryId hv hr ht hc
    simp [runPostToCannyScript, hv, hr, ht, hc]

/-- An environment with `GITHUB_TOKEN` unset and the rest present. -/
def noTokenEnv : Env :=
  { github_token := none, github_org := some "o", uploadcare_public_key := some "k",
    slack_token := some "s", openai_api_key := some "a", canny_api_key := some "c" }

/-- A benign remote world: no repositories, everything succeeds. -/
def trivialApi : Api :=
  { reposResult := Except.ok [], repoDetails := fun _ => none,
    cannyResult := Except.ok "entry1", slackOk := true }

/-- Witness for C6 at a concrete input: with `GITHUB_TOKEN` unset the
script exits 1 having made no remote call. -/
theorem c6_witness :
    validatePostToCannyEnv noTokenEnv
        = some "❌ Missing GITHUB_TOKEN environment variable."
  ∧ runPostToCannyScript noTokenEnv trivialApi = (1, []) :=
  c6_env_validation_spec.1 noTokenEnv trivialApi (by decide)

/-! ## Cycle gate claim -/

/-- Claim C7: whenever the invocation time does not begin a 4-week
cycle, the monthly slides main makes no remote call at all — no
changelog fetch, no summarization, no presentation, no Slack post —
and, when the environment validation at the top of `main` passes, it
returns right after the `shouldRun` check with a normal exit. -/
theorem c7_cycle_gate (e : Env) (nowMs : Int) (api : SlidesApi)
    (h : isBeginningOfCycle nowMs = false) :
    (runSlidesMain e nowMs api).2 = []
  ∧ (validateSlidesEnv e = none → runSlidesMain e nowMs api = (0, [])) := by
  rcases hv : validateSlidesEnv e with _ | m
  · constructor
    · simp [runSlidesMain, shouldRun, hv, h]
    · intro hn
      simp [runSlidesMain, shouldRun, hv, h]
  · constructor
    · simp [runSlidesMain, hv]
    · intro hn
      exact absurd hn (by simp)

/-- A fully populated environment for the slides script. -/
def fullEnv : Env :=
  { github_token := some "t", github_org := some "o",
    uploadcare_public_key := some "k", slack_token := some "s",
    openai_api_key := some "a", canny_api_key := some "c" }

/-- Witness for C7 at a concrete input: 2025-05-06 (a Tuesday) does
not begin a cycle, so the run performs nothing and exits 0. -/
theorem c7_witness : runSlidesMain fullEnv 1746489600000 ⟨[]⟩ = (0, []) :=
  (c7_cycle_gate fullEnv 1746489600000 ⟨[]⟩ (by decide)).2 (by decide)

/-! ## Author aggregation lemmas -/

theorem addIssue_authors (i : Issue) (acc : List AuthorStats) :
    (addIssue i acc).map AuthorStats.author
      = if authorKey i ∈ acc.map AuthorStats.author then acc.map AuthorStats.author
        else acc.map AuthorStats.author ++ [authorKey i] := by
  induction acc with
  | nil => simp [addIssue]
  | cons st rest ih =>
    by_cases h : st.author = authorKey i
    · simp [addIssue, h]
    · have h2 : ¬ authorKey i = st.author := fun hh => h hh.symm
      simp only [addIssue, if_neg h, List.map_cons, ih, List.mem_cons]
      by_cases hm : authorKey i ∈ rest.map AuthorStats.author
      · simp [hm, h2]
      · simp [hm, h2]

theorem addIssue_mem (i : Issue) (acc : List AuthorStats)
    (hnd : (acc.map AuthorStats.author).Nodup) :
    ∀ st ∈ addIssue i acc,
      (st ∈ acc ∧ st.author ≠ authorKey i)
      ∨ (∃ old, old ∈ acc ∧ old.author = authorKey i
          ∧ st = { author := old.author, totalSize := old.totalSize + issueSize i,
                   issues := old.issues ++ [i] })
      ∨ (authorKey i ∉ acc.map AuthorStats.author
          ∧ st = { author := authorKey i, totalSize := issueSize i, issues := [i] }) := by
  induction acc with
  | nil =>
    intro st hst
    simp only [addIssue, List.mem_singleton] at hst
    right; right
    exact ⟨by simp, hst⟩
  | cons hd rest ih =>
    have hnd1 : hd.author ∉ rest.map AuthorStats.author :=
      (List.nodup_cons.mp (by simpa using hnd)).1
    have hnd2 : (rest.map AuthorStats.author).Nodup :=
      (List.nodup_cons.mp (by simpa using hnd)).2
    intro st hst
    by_cases h : hd.author = authorKey i
    · simp only [addIssue, if_pos h] at hst
      rcases List.mem_cons.mp hst with rfl | hmem
      · right; left
        exact ⟨hd, List.mem_cons_self _ _, h, rfl⟩
      · left
        refine ⟨List.mem_cons_of_mem _ hmem, ?_⟩
        intro heq
        exact hnd1 (by rw [h, ← heq]; exact List.mem_map_of_mem _ hmem)
    · simp only [addIssue, if_neg h] at hst
      rcases List.mem_cons.mp hst with rfl | hmem
      · left
        exact ⟨List.mem_cons_self _ _, fun hh => h hh⟩
      · rcases ih hnd2 st hmem with ⟨hin, hne⟩ | ⟨old, ho, hoa, heq⟩ | ⟨hnm, heq⟩
        · exact Or.inl ⟨List.mem_cons_of_mem _ hin, hne⟩
        · exact Or.inr (Or.inl ⟨old, List.mem_cons_of_mem _ ho, hoa, heq⟩)
        · refine Or.inr (Or.inr ⟨?_, heq⟩)
          simp only [List.map_cons, List.mem_cons]
          rintro (hh | hh)
          · exact h hh.symm
          · exact hnm hh

/-- The invariant of the aggregation fold: after processing the issues
in `processed`, the accumulator has one record per distinct author
key, and each record carries exactly that author's filtered issues and
summed sizes. -/
def aggGood (processed : List Issue) (acc : List AuthorStats) : Prop :=
  (acc.map AuthorStats.author).Nodup
  ∧ (∀ a, a ∈ acc.map AuthorStats.author ↔ a ∈ processed.map authorKey)
  ∧ (∀ st ∈ acc,
      st.totalSize
        = ((processed.filter (fun j => authorKey j = st.author)).map issueSize).sum
      ∧ st.issues = processed.filter (fun j => authorKey j = st.author))

theorem aggGood_nil : aggGood [] [] := by
  refine ⟨by simp, by simp, by simp⟩

theorem filter_eq_nil_of_not_mem_keys (p : List Issue) (a : String)
    (h : a ∉ p.map authorKey) :
    p.filter (fun j => authorKey j = a) = [] := by
  induction p with
  | nil => simp
  | cons x xs ih =>
    simp only [List.map_cons, List.mem_cons] at h
    push_neg at h
    have hx : ¬ (authorKey x = a) := fun hh => h.1 hh.symm
    simp only [List.filter_cons, decide_eq_true_eq]
    rw [if_neg hx]
    exact ih h.2

theorem aggGood_step (p : List Issue) (acc : List AuthorStats) (i : Issue)
    (hg : aggGood p acc) : aggGood (p ++ [i]) (addIssue i acc) := by
  obtain ⟨hnd, hmem, hent⟩ := hg
  have authors := addIssue_authors i acc
  refine ⟨?_, ?_, ?_⟩
  · rw [authors]
    by_cases hm : authorKey i ∈ acc.map AuthorStats.author
    · rw [if_pos hm]; exact hnd
    · rw [if_neg hm]
      refine List.Nodup.append hnd (List.nodup_singleton _) ?_
      intro a ha hb
      rw [List.mem_singleton] at hb
      subst hb
      exact hm ha
  · intro a
    rw [authors]
    have hpi : a ∈ (p ++ [i]).map authorKey ↔ a ∈ p.map authorKey ∨ a = authorKey i := by
      simp [List.map_append, List.mem_append, eq_comm]
    by_cases hm : authorKey i ∈ acc.map AuthorStats.author
    · rw [if_pos hm, hmem a, hpi]
      constructor
      · exact Or.inl
      · rintro (h | rfl)
        · exact h
        · exact (hmem _).mp hm
    · rw [if_neg hm, hpi]
      simp only [List.mem_append, List.mem_singleton, hmem a]
  · intro st hst
    have hfilter : ∀ a, (p ++ [i]).filter (fun j => authorKey j = a)
        = p.filter (fun j => authorKey j = a)
          ++ (if authorKey i = a then [i] else []) := by
      intro a
      rw [List.filter_append]
      congr 1
      simp only [List.filter_cons, List.filter_nil, decide_eq_true_eq]
    rcases addIssue_mem i acc hnd st hst with
        ⟨hin, hne⟩ | ⟨old, ho, hoa, heq⟩ | ⟨hnm, heq⟩
    · obtain ⟨hts, his⟩ := hent st hin
      have hcond : ¬ (authorKey i = st.author) := fun hh => hne hh.symm
      rw [hfilter st.author, if_neg hcond]
      constructor
      · rw [hts]; simp
      · rw [his]; simp
    · obtain ⟨hts, his⟩ := hent old ho
      subst heq
      have hcond : authorKey i = old.author := hoa.symm
      rw [hfilter old.author, if_pos hcond]
      constructor
      · simp only [List.map_append, List.sum_append, List.map_cons, List.map_nil,
          List.sum_cons, List.sum_nil]
        rw [hts]
        omega
      · rw [his]
    · subst heq
      have hkeys : authorKey i ∉ p.map authorKey := fun hh => hnm ((hmem _).mpr hh)
      have hfil : p.filter (fun j => authorKey j = authorKey i) = [] :=
        filter_eq_nil_of_not_mem_keys p (authorKey i) hkeys
      rw [hfilter (authorKey i), if_pos rfl, hfil]
      constructor
      · simp
      · simp

theorem aggGood_foldl :
    ∀ (rest p : List Issue) (acc : List AuthorStats), aggGood p acc →
      aggGood (p ++ rest) (rest.foldl (fun a i => addIssue i a) acc) := by
  intro rest
  induction rest with
  | nil => intro p acc hg; simpa using hg
  | cons i rest ih =>
    intro p acc hg
    have step := aggGood_step p acc i hg
    have := ih (p ++ [i]) (addIssue i acc) step
    simpa [List.append_assoc] using this

theorem insertBySizeDesc_perm (st : AuthorStats) (l : List AuthorStats) :
    List.Perm (insertBySizeDesc st l) (st :: l) := by
  induction l with
  | nil => exact List.Perm.refl _
  | cons x xs ih =>
    by_cases h : x.totalSize < st.totalSize
    · simp only [insertBySizeDesc, if_pos h]
      exact List.Perm.refl _
    · simp only [insertBySizeDesc, if_neg h]
      exact (ih.cons x).trans (List.Perm.swap st x xs)

theorem sortBySizeDesc_perm_aux (l : List AuthorStats) :
    ∀ acc, List.Perm (l.foldl (fun a s => insertBySizeDesc s a) acc) (acc ++ l) := by
  induction l with
  | nil => intro acc; simp
  | cons x xs ih =>
    intro acc
    have h1 := ih (insertBySizeDesc x acc)
    have h2 : List.Perm (insertBySizeDesc x acc ++ xs) ((x :: acc) ++ xs) :=
      (insertBySizeDesc_perm x acc).append_right xs
    have h3 : List.Perm ((x :: acc) ++ xs) (acc ++ x :: xs) :=
      List.perm_middle.symm
    exact (h1.trans h2).trans h3

theorem sortBySizeDesc_perm (l : List AuthorStats) :
    List.Perm (sortBySizeDesc l) l := by
  simpa [sortBySizeDesc] using sortBySizeDesc_perm_aux l []

/-- Claim C8: `aggregateIssuesByAuthor` is a pure function of its
input and returns one record per distinct author (issues without an
author are grouped under "unknown"), whose `totalSize` is the sum of
that author's sizes (parseInt-or-0 semantics) and whose `issues` list
holds exactly that author's issues in input order. -/
theorem c8_aggregate_spec (issues : List Issue) :
    ((aggregateIssuesByAuthor issues).map AuthorStats.author).Nodup
  ∧ (∀ a, a ∈ (aggregateIssuesByAuthor issues).map AuthorStats.author
        ↔ a ∈ issues.map authorKey)
  ∧ (∀ st ∈ aggregateIssuesByAuthor issues,
      st.totalSize
        = ((issues.filter (fun j => authorKey j = st.author)).map issueSize).sum
      ∧ st.issues = issues.filter (fun j => authorKey j = st.author)) := by
  have h : aggGood issues (issues.foldl (fun acc i => addIssue i acc) []) := by
    simpa using aggGood_foldl issues [] [] aggGood_nil
  obtain ⟨hnd, hmem, hent⟩ := h
  have hperm : List.Perm (aggregateIssuesByAuthor issues)
      (issues.foldl (fun acc i => addIssue i acc) []) :=
    sortBySizeDesc_perm _
  have hpermMap := hperm.map AuthorStats.author
  refine ⟨?_, ?_, ?_⟩
  · exact hpermMap.nodup_iff.mpr hnd
  · intro a
    rw [hpermMap.mem_iff]
    exact hmem a
  · intro st hst
    exact hent st (hperm.mem_iff.mp hst)

/-- Three closed issues: two by alice (string sizes "3" and "4x",
which `parseInt` reads as 4) and one with no author and no size. -/
def sampleIssues : List Issue :=
  [⟨1, some "alice", some (SizeVal.str "3")⟩,
   ⟨2, none, none⟩,
   ⟨3, some "alice", some (SizeVal.str "4x")⟩]

/-- Witness for C8 at a concrete input: the aggregated record for
alice (total 3 + 4 = 7) lists exactly her issues in input order. -/
theorem c8_witness :
    (⟨"alice", 7, [⟨1, some "alice", some (SizeVal.str "3")⟩,
        ⟨3, some "alice", some (SizeVal.str "4x")⟩]⟩ : AuthorStats).issues
      = sampleIssues.filter (fun j => authorKey j
          = (⟨"alice", 7, [⟨1, some "alice", some (SizeVal.str "3")⟩,
              ⟨3, some "alice", some (SizeVal.str "4x")⟩]⟩ : AuthorStats).author) :=
  ((c8_aggregate_spec sampleIssues).2.2 _ (by decide)).2

end Spec2Proof
